import Mathlib

/-!
Verification of the credential-management and feed-normalization core of the
repository (src/appenglish.py, src/db_utils.py, src/feedanalyzer.py).

Python strings that undergo character-level transformations (headers, category
cells) are modelled as lists of Unicode code points (`List Nat`); `pystr`
converts a Lean string literal to that representation.  Strings that are only
compared for equality (usernames, passwords, emails, messages) stay `String`.
bcrypt is modelled abstractly: `hashpw` packages the salt and the password into
an opaque `Digest`, and `checkpw p d` succeeds exactly when `p` is the password
that was hashed — bcrypt's functional contract (ignoring hash collisions).
-/

/-- Code points of a Lean string literal, used to write concrete Python
strings in statements. -/
def pystr (s : String) : List Nat :=
  s.toList.map Char.toNat

/-- Model of Python whitespace for `str.strip` / `str.split` (ASCII subset:
space, tab, newline, carriage return, vertical tab, form feed). -/
def isSpaceN (n : Nat) : Bool :=
  decide (n = 32 ∨ n = 9 ∨ n = 10 ∨ n = 13 ∨ n = 11 ∨ n = 12)

/-- Model of Python `str.lower` on one code point (ASCII letters). -/
def lowerN (n : Nat) : Nat :=
  if 65 ≤ n ∧ n ≤ 90 then n + 32 else n

/-- Python `str.lower` over a whole string. -/
def pyLower (l : List Nat) : List Nat :=
  l.map lowerN

/-- Python `str.strip`: drop whitespace from both ends. -/
def pyStrip (l : List Nat) : List Nat :=
  ((l.dropWhile isSpaceN).reverse.dropWhile isSpaceN).reverse

/-- Python `str.split()` with no argument: split on whitespace runs,
discarding empty fragments. -/
def pySplit (l : List Nat) : List (List Nat) :=
  (l.splitOnP isSpaceN).filter (fun w => !w.isEmpty)

/-- Python substring containment `w in s` (contiguous occurrence). -/
def isSubstr (w : List Nat) : List Nat → Bool
  | [] => w.isEmpty
  | c :: rest => w.isPrefixOf (c :: rest) || isSubstr w rest

/-! ### Feed loading: `FeedAnalyzer.load_excel` (src/appenglish.py lines 104-124)

The source lowercases and strips every header
(`df.columns = df.columns.str.lower().str.strip()`) and then renames columns
through the fixed `column_mapping` dict; `DataFrame.rename` leaves labels that
are not keys of the dict unchanged. -/

/-- The `column_mapping` dict of `load_excel` (src/appenglish.py lines 114-120). -/
def column_mapping : List (List Nat × List Nat) :=
  [(pystr "title", pystr "title"),
   (pystr "description", pystr "description"),
   (pystr "price", pystr "price"),
   (pystr "availability", pystr "availability"),
   (pystr "additional_images", pystr "additional_image_link")]

/-- `DataFrame.rename(columns=column_mapping)` on one label: substitute when the
label is a key of the dict, otherwise keep it. -/
def renameColumn (c : List Nat) : List Nat :=
  (column_mapping.lookup c).getD c

/-- The complete header transformation of `load_excel`: lowercase, strip, then
alias substitution. -/
def normalizeHeader (h : List Nat) : List Nat :=
  renameColumn (pyStrip (pyLower h))

/-- Header transformation applied to all columns of the sheet. -/
def normalizeHeaders (hs : List (List Nat)) : List (List Nat) :=
  hs.map normalizeHeader

/-- `FeedAnalyzer.load_excel` (src/appenglish.py lines 104-124) on a parsed
sheet given as a header row plus data rows: raises (models
`raise ValueError("The Excel file is empty")` re-wrapped by the outer
`except`) when there are no data rows, otherwise returns the table with
normalized headers.  Row contents are untouched, so rows are polymorphic. -/
def loadExcel {ρ : Type} (headers : List (List Nat)) (rows : List ρ) :
    Except String (List (List Nat) × List ρ) :=
  if rows.isEmpty then
    Except.error "Error loading Excel file: The Excel file is empty"
  else
    Except.ok (normalizeHeaders headers, rows)

/-! ### Credential store (src/appenglish.py lines 20-87, src/db_utils.py)

Both backends store a user document `{username, password digest, email,
created_at}` with unique indexes on `username` and `email` (MongoDB
`create_index(..., unique=True)`; SQLite `username TEXT UNIQUE`,
`email TEXT UNIQUE`).  An insert that collides on the username index fails
with an error naming `username`, which both sources map to
"Username already exists!"; a collision on the email index maps to
"Email already registered!".  The username constraint is checked first
(it is declared first in both schemas). -/

/-- A bcrypt digest: `bcrypt.hashpw(password, salt)`.  Opaque to callers;
`checkpw` is its only observer. -/
structure Digest where
  salt : Nat
  hashedOf : String
deriving DecidableEq

/-- `bcrypt.hashpw(password.encode(), salt)`. -/
def hashpw (password : String) (salt : Nat) : Digest :=
  ⟨salt, password⟩

/-- `bcrypt.checkpw(supplied.encode(), stored)`: succeeds exactly when the
supplied password is the one that was hashed (bcrypt's contract, assuming no
collisions).  Comparison is on the unmodified password, hence
case-sensitive. -/
def checkpw (supplied : String) (stored : Digest) : Bool :=
  supplied == stored.hashedOf

/-- A stored user record: `{username, password, email, created_at}`. -/
structure UserRec where
  username : String
  password : Digest
  email : String
  created_at : Nat
deriving DecidableEq

/-- The user collection/table, in insertion order (`find_one` and
`SELECT ... LIMIT` return the first match). -/
abbrev Store : Type := List UserRec

/-- `DatabaseManager.register_user` (src/appenglish.py lines 35-61): hash the
password, insert the document; a duplicate username yields
(False, "Username already exists!"), a duplicate email
(False, "Email already registered!"); on success the record is appended and
(True, "Registration successful!") is returned.  `salt` models
`bcrypt.gensalt()` and `time` models `datetime.utcnow()`. -/
def registerUser (s : Store) (username password email : String) (salt time : Nat) :
    Store × Bool × String :=
  if s.any (fun r => r.username == username) then
    (s, false, "Username already exists!")
  else if s.any (fun r => r.email == email) then
    (s, false, "Email already registered!")
  else
    (s ++ [⟨username, hashpw password salt, email, time⟩], true, "Registration successful!")

/-- `DatabaseManager.verify_user` (src/appenglish.py lines 63-79): look up the
first record with the given username; absent username and mismatching digest
both produce (False, "Invalid username or password!"). -/
def verifyUser (s : Store) (username password : String) : Bool × String :=
  match s.find? (fun r => r.username == username) with
  | none => (false, "Invalid username or password!")
  | some u =>
    if checkpw password u.password then (true, "Login successful!")
    else (false, "Invalid username or password!")

/-- `DatabaseManager.register_user` of the SQLite backend (src/db_utils.py
lines 30-57).  `connectErr = some e` models `sqlite3.connect` raising with
message `e`: the whole body is wrapped in `try/except Exception`, so the
caller receives (False, "An error occurred: " ++ e).  With a working
connection the behaviour is the same store-level logic as the MongoDB
backend: the INSERT hits the UNIQUE constraints, and the error message is
dispatched on whether it names `username` or `email`. -/
def registerUserSql (connectErr : Option String) (s : Store)
    (username password email : String) (salt time : Nat) : Store × Bool × String :=
  match connectErr with
  | some e => (s, false, "An error occurred: " ++ e)
  | none =>
    if s.any (fun r => r.username == username) then
      (s, false, "Username already exists!")
    else if s.any (fun r => r.email == email) then
      (s, false, "Email already registered!")
    else
      (s ++ [⟨username, hashpw password salt, email, time⟩], true, "Registration successful!")

/-- `DatabaseManager.verify_user` of the SQLite backend (src/db_utils.py lines
59-81).  When `sqlite3.connect` itself raises (`connectErr = some e`), the
`except` clause prepares (False, "An error occurred: ..."), but the `finally`
clause then evaluates `conn.close()` with `conn` never assigned, raising
`UnboundLocalError`, which replaces the pending return and propagates to the
caller — modelled as `Except.error`.  With a working connection the lookup
logic is identical to the MongoDB backend. -/
def verifyUserSql (connectErr : Option String) (s : Store) (username password : String) :
    Except String (Bool × String) :=
  match connectErr with
  | some _ => Except.error "UnboundLocalError: conn"
  | none =>
    Except.ok
      (match s.find? (fun r => r.username == username) with
       | none => (false, "Invalid username or password!")
       | some u =>
         if checkpw password u.password then (true, "Login successful!")
         else (false, "Invalid username or password!"))

/-- One registration request: the arguments of a `register_user` call together
with the salt drawn by `bcrypt.gensalt()` and the `datetime.utcnow()`
timestamp of that call. -/
structure RegOp where
  username : String
  password : String
  email : String
  salt : Nat
  time : Nat
deriving DecidableEq

/-- Run a sequence of `register_user` calls against a store. -/
def runRegs (s : Store) : List RegOp → Store
  | [] => s
  | op :: rest => runRegs (registerUser s op.username op.password op.email op.salt op.time).1 rest

/-- `registeredWith s ops u p` holds when, in the run of `ops` from store `s`,
some call `register_user(u, p, _)` succeeded: "u was registered with exactly
the password p". -/
def registeredWith (s : Store) : List RegOp → String → String → Prop
  | [], _, _ => False
  | op :: rest, u, p =>
    ((registerUser s op.username op.password op.email op.salt op.time).2.1 = true
        ∧ op.username = u ∧ op.password = p)
      ∨ registeredWith (registerUser s op.username op.password op.email op.salt op.time).1 rest u p

/-! ### Input validation and the registration page (src/appenglish.py lines 286-362) -/

/-- ASCII uppercase letter, modelling Python `c.isupper()`. -/
def isUpperCh (c : Char) : Bool :=
  decide (65 ≤ c.toNat ∧ c.toNat ≤ 90)

/-- ASCII lowercase letter, modelling Python `c.islower()`. -/
def isLowerCh (c : Char) : Bool :=
  decide (97 ≤ c.toNat ∧ c.toNat ≤ 122)

/-- ASCII digit, modelling Python `c.isdigit()`. -/
def isDigitCh (c : Char) : Bool :=
  decide (48 ≤ c.toNat ∧ c.toNat ≤ 57)

/-- A regex word character `\w` (ASCII model): letter, digit or underscore. -/
def isWordCh (c : Char) : Bool :=
  isUpperCh c || isLowerCh c || isDigitCh c || c == '_'

/-- A character of the class `[\w.-]` from the email pattern. -/
def isWddCh (c : Char) : Bool :=
  isWordCh c || c == '.' || c == '-'

/-- Tail of the email pattern after the `@`: the regex `[\w\.-]+\.\w+$`
matches `r` exactly when `r` splits at its last dot into a nonempty `[\w.-]+`
part and a nonempty `\w+` part (any other split would leave a dot inside the
final `\w+`). -/
def emailTail (r : List Char) : Bool :=
  let rc := r.reverse
  let c := rc.takeWhile (fun ch => !(ch == '.'))
  match rc.dropWhile (fun ch => !(ch == '.')) with
  | [] => false
  | _ :: b => !c.isEmpty && c.all isWordCh && !b.isEmpty && b.all isWddCh

/-- `validate_email` (src/appenglish.py lines 286-289):
`re.match(r'^[\w\.-]+@[\w\.-]+\.\w+$', email)`.  The local part admits no `@`,
so a match forces exactly one `@`; `emailTail` handles the domain part. -/
def validateEmail (email : String) : Bool :=
  match email.toList.splitOnP (fun ch => ch == '@') with
  | [a, r] => !a.isEmpty && a.all isWddCh && emailTail r
  | _ => false

/-- `validate_password` (src/appenglish.py lines 291-301): length, uppercase,
lowercase and digit checks in order, each with its own message. -/
def validatePassword (password : String) : Bool × String :=
  if password.length < 8 then
    (false, "Password must be at least 8 characters long")
  else if password.toList.any isUpperCh = false then
    (false, "Password must contain at least one uppercase letter")
  else if password.toList.any isLowerCh = false then
    (false, "Password must contain at least one lowercase letter")
  else if password.toList.any isDigitCh = false then
    (false, "Password must contain at least one number")
  else
    (true, "Password is valid")

/-- Outcome shown by a Streamlit page: `st.success` or `st.error`. -/
inductive PageMsg where
  | success (msg : String)
  | error (msg : String)
deriving DecidableEq

/-- `register_page` (src/appenglish.py lines 327-362), the submit branch: all
fields must be non-empty; then email syntax, password strength and password
confirmation are checked in that order, each failure aborting before any
database call; only then is `register_user` invoked.  Returns the store after
the interaction together with the displayed message. -/
def registerPage (s : Store) (username email password confirm : String)
    (salt time : Nat) : Store × PageMsg :=
  if username ≠ "" ∧ email ≠ "" ∧ password ≠ "" ∧ confirm ≠ "" then
    if validateEmail email = false then
      (s, PageMsg.error "Please enter a valid email address")
    else if (validatePassword password).1 = false then
      (s, PageMsg.error (validatePassword password).2)
    else if password ≠ confirm then
      (s, PageMsg.error "Passwords do not match")
    else
      let r := registerUser s username password email salt time
      (r.1, if r.2.1 then PageMsg.success r.2.2 else PageMsg.error r.2.2)
  else
    (s, PageMsg.error "Please fill in all fields")

/-! ### Feed validation: `FeedAnalyzer.check_feed_issues` (src/feedanalyzer.py lines 53-88)

A DataFrame is modelled as an association list from column name to the list of
cells of that column; `df['c']` is `lookup`, `df.columns` the keys, and a cell
is `none` for NaN or `some` of the code points of `str(cell)`. -/

/-- The hardcoded fallback category of `check_feed_issues` and
`suggest_category`. -/
def defaultCategory : List Nat :=
  pystr "Food, Beverages & Tobacco > Food Items > Fresh Food > Fresh Fruits"

/-- `FeedAnalyzer.suggest_category` (src/feedanalyzer.py lines 33-49): empty
input gets the fallback; otherwise collect valid categories sharing a word
with the lowercased input (Python `word in valid_cat.lower()` is substring
containment), stopping after three.  `validCats` is the taxonomy in iteration
order. -/
def suggestCategory (validCats : List (List Nat)) (current : List Nat) : List (List Nat) :=
  if current = [] then
    [defaultCategory]
  else
    (validCats.filter
      (fun vc => (pySplit (pyLower current)).any (fun w => isSubstr w (pyLower vc)))).take 3

/-- One iteration of the category loop of `check_feed_issues` (lines 72-83):
NaN or blank cells are flagged with the fallback suggestion; non-blank cells
not in the taxonomy are flagged with `suggest_category`; cells in the taxonomy
are not flagged. -/
def checkCategoryCell (validCats : List (List Nat)) (cell : Option (List Nat)) :
    Option (List Nat × List (List Nat)) :=
  match cell with
  | none => some ([], [defaultCategory])
  | some cat =>
    if pyStrip cat = [] then some ([], [defaultCategory])
    else if cat ∈ validCats then none
    else some (cat, suggestCategory validCats cat)

/-- The category loop of `check_feed_issues`: walk the cells with their row
index, collecting the flagged ones as `index ↦ (current, suggestions)`. -/
def collectInvalid (validCats : List (List Nat)) :
    Nat → List (Option (List Nat)) → List (Nat × (List Nat × List (List Nat)))
  | _, [] => []
  | i, c :: rest =>
    match checkCategoryCell validCats c with
    | none => collectInvalid validCats (i + 1) rest
    | some pr => (i, pr) :: collectInvalid validCats (i + 1) rest

/-- The `issues` report of `check_feed_issues` (src/feedanalyzer.py lines
55-62).  The `title_length`, `missing_brand`, `missing_image_column` and
`missing_custom_labels` entries are initialized and never updated in the
source as given (the elided checks are a comment), so they keep their initial
values. -/
structure FeedIssues where
  title_length : List Nat
  missing_brand : List Nat
  missing_image_column : Bool
  missing_custom_labels : Bool
  invalid_categories : List (Nat × (List Nat × List (List Nat)))
  missing_category_column : Bool
deriving DecidableEq

/-- `FeedAnalyzer.check_feed_issues` (src/feedanalyzer.py lines 53-88): flag
`missing_category_column` when `google_product_category` is not among the
columns, otherwise run the per-row category check.  (The source stores the
invalid-category dict only when non-empty; an empty dict and the initial value
coincide.) -/
def checkFeedIssues (validCats : List (List Nat))
    (df : List (String × List (Option (List Nat)))) : FeedIssues :=
  match df.lookup "google_product_category" with
  | none => ⟨[], [], false, false, [], true⟩
  | some cells => ⟨[], [], false, false, collectInvalid validCats 0 cells, false⟩

/-- The validation operation as the SPEC describes it (spec.md section 4.2):
the ordered set difference `requiredFields − table.columns`.  This definition
follows the spec's words, for comparison against the source — no such
operation exists in the source. -/
def specValidate (requiredFields cols : List String) : List String :=
  requiredFields.filter (fun f => !(cols.contains f))

/-! ### Row sampling: `FeedAnalyzer.analyze_feed` (src/appenglish.py lines 180-208)

The source computes
`sample_data = feed_data.sample(n=3) if len(feed_data) > 3 else feed_data`.
`DataFrame.sample(n)` draws `n` distinct rows uniformly at random without
replacement, which is modelled as taking the first `n` rows of a random
permutation of the table: `shuffled` ranges over permutations of `feed`. -/

/-- The sampling expression of `analyze_feed` with the sample size as a
parameter; the source instantiates `n := 3`. -/
def sampleRows {α : Type} (feed shuffled : List α) (n : Nat) : List α :=
  if feed.length > n then shuffled.take n else feed

/-- The sampling step exactly as in the source, with its hardcoded `n=3`. -/
def analyzeSampleStep {α : Type} (feed shuffled : List α) : List α :=
  sampleRows feed shuffled 3

/-! ### Lemmas about the header normalization primitives -/

theorem lowerN_idem (n : Nat) : lowerN (lowerN n) = lowerN n := by
  unfold lowerN
  split_ifs <;> omega

theorem isSpaceN_lowerN (n : Nat) : isSpaceN (lowerN n) = isSpaceN n := by
  unfold lowerN isSpaceN
  split_ifs with h
  · rw [decide_eq_decide]
    omega
  · rfl

theorem pyLower_idem (l : List Nat) : pyLower (pyLower l) = pyLower l := by
  have h : lowerN ∘ lowerN = lowerN := funext lowerN_idem
  simp [pyLower, List.map_map, h]

theorem dropWhile_dropWhile {α : Type} (p : α → Bool) (l : List α) :
    List.dropWhile p (List.dropWhile p l) = List.dropWhile p l := by
  induction l with
  | nil => rfl
  | cons a t ih =>
    by_cases h : p a
    · simp [List.dropWhile_cons, h, ih]
    · simp [List.dropWhile_cons, h]

theorem head_dropWhile_not {α : Type} (p : α → Bool) (l : List α) :
    ∀ h : List.dropWhile p l ≠ [], p ((List.dropWhile p l).head h) = false := by
  induction l with
  | nil => intro h; exact absurd rfl h
  | cons a t ih =>
    intro h
    by_cases hp : p a
    · simp only [List.dropWhile_cons, if_pos hp] at h ⊢
      exact ih h
    · simp only [List.dropWhile_cons, if_neg hp] at h ⊢
      simpa using hp

theorem dropWhile_eq_self_of_head {α : Type} (p : α → Bool) (l : List α)
    (h : ∀ hn : l ≠ [], p (l.head hn) = false) : List.dropWhile p l = l := by
  cases l with
  | nil => rfl
  | cons a t =>
    have ha := h (by simp)
    simp only [List.head_cons] at ha
    simp [List.dropWhile_cons, ha]

theorem head_of_isPre {α : Type} (l₁ l₂ : List α) (hp : l₁ <+: l₂) (h1 : l₁ ≠ []) :
    ∃ h2 : l₂ ≠ [], l₂.head h2 = l₁.head h1 := by
  obtain ⟨t, rfl⟩ := hp
  cases l₁ with
  | nil => exact absurd rfl h1
  | cons a t₁ => exact ⟨by simp, rfl⟩

theorem pyStrip_idem (l : List Nat) : pyStrip (pyStrip l) = pyStrip l := by
  show ((((((l.dropWhile isSpaceN).reverse.dropWhile isSpaceN).reverse).dropWhile
      isSpaceN).reverse).dropWhile isSpaceN).reverse = _
  have h1 : (((l.dropWhile isSpaceN).reverse.dropWhile isSpaceN).reverse).dropWhile
      isSpaceN = ((l.dropWhile isSpaceN).reverse.dropWhile isSpaceN).reverse := by
    apply dropWhile_eq_self_of_head
    intro hn
    have hpre : ((l.dropWhile isSpaceN).reverse.dropWhile isSpaceN).reverse
        <+: l.dropWhile isSpaceN := by
      apply List.reverse_suffix.mp
      simpa using List.dropWhile_suffix (l := (l.dropWhile isSpaceN).reverse) isSpaceN
    obtain ⟨h2, hh⟩ := head_of_isPre _ _ hpre hn
    rw [← hh]
    exact head_dropWhile_not isSpaceN l h2
  rw [h1, List.reverse_reverse, dropWhile_dropWhile]
  rfl

theorem pyLower_pyStrip (l : List Nat) : pyLower (pyStrip l) = pyStrip (pyLower l) := by
  have hco : (isSpaceN ∘ lowerN) = isSpaceN := funext isSpaceN_lowerN
  unfold pyLower pyStrip
  rw [List.dropWhile_map, hco, ← List.map_reverse, List.dropWhile_map, hco, ← List.map_reverse]

theorem lowerStrip_idem (l : List Nat) :
    pyStrip (pyLower (pyStrip (pyLower l))) = pyStrip (pyLower l) := by
  rw [pyLower_pyStrip, pyLower_idem, pyStrip_idem]

theorem lookup_mem {α β : Type} [BEq α] [LawfulBEq α] (l : List (α × β)) (a : α) (b : β)
    (h : List.lookup a l = some b) : (a, b) ∈ l := by
  induction l with
  | nil => simp [List.lookup] at h
  | cons kv t ih =>
    obtain ⟨k, v⟩ := kv
    simp only [List.lookup] at h
    split at h
    next heq =>
      cases h
      have : a = k := eq_of_beq heq
      subst this
      exact List.mem_cons_self _ _
    next heq =>
      exact List.mem_cons_of_mem _ (ih h)

theorem normalizeHeader_fixed_on_values (v : List Nat)
    (hv : v ∈ column_mapping.map Prod.snd) : normalizeHeader v = v := by
  simp only [column_mapping, List.map_cons, List.map_nil, List.mem_cons,
    List.not_mem_nil, or_false] at hv
  rcases hv with rfl | rfl | rfl | rfl | rfl <;> decide

/-- C9: applying the header transformation of `load_excel` (lowercase + trim +
alias substitution) a second time changes nothing, on a single header and on a
whole header set. -/
theorem c9_normalize_idempotent :
    (∀ h : List Nat, normalizeHeader (normalizeHeader h) = normalizeHeader h)
    ∧ (∀ hs : List (List Nat), normalizeHeaders (normalizeHeaders hs) = normalizeHeaders hs) := by
  constructor
  · intro h
    show normalizeHeader (renameColumn (pyStrip (pyLower h))) = renameColumn (pyStrip (pyLower h))
    cases hl : List.lookup (pyStrip (pyLower h)) column_mapping with
    | none =>
      have hy : renameColumn (pyStrip (pyLower h)) = pyStrip (pyLower h) := by
        simp [renameColumn, hl]
      rw [hy]
      show renameColumn (pyStrip (pyLower (pyStrip (pyLower h)))) = _
      rw [lowerStrip_idem]
      simp [renameColumn, hl]
    | some v =>
      have hy : renameColumn (pyStrip (pyLower h)) = v := by
        simp [renameColumn, hl]
      rw [hy]
      exact normalizeHeader_fixed_on_values v
        (List.mem_map_of_mem Prod.snd (lookup_mem _ _ _ hl))
  · intro hs
    show (hs.map normalizeHeader).map normalizeHeader = hs.map normalizeHeader
    rw [List.map_map]
    apply List.map_congr_left
    intro h _
    show normalizeHeader (normalizeHeader h) = normalizeHeader h
    cases hl : List.lookup (pyStrip (pyLower h)) column_mapping with
    | none =>
      have hy : renameColumn (pyStrip (pyLower h)) = pyStrip (pyLower h) := by
        simp [renameColumn, hl]
      show normalizeHeader (renameColumn (pyStrip (pyLower h))) = renameColumn (pyStrip (pyLower h))
      rw [hy]
      show renameColumn (pyStrip (pyLower (pyStrip (pyLower h)))) = _
      rw [lowerStrip_idem]
      simp [renameColumn, hl]
    | some v =>
      show normalizeHeader (renameColumn (pyStrip (pyLower h))) = renameColumn (pyStrip (pyLower h))
      have hy : renameColumn (pyStrip (pyLower h)) = v := by
        simp [renameColumn, hl]
      rw [hy]
      exact normalizeHeader_fixed_on_values v
        (List.mem_map_of_mem Prod.snd (lookup_mem _ _ _ hl))

/-- Witness for C9 at a concrete header set. -/
theorem c9_normalize_idempotent_witness :
    normalizeHeaders (normalizeHeaders [pystr " TITLE ", pystr "Additional_Images"])
      = normalizeHeaders [pystr " TITLE ", pystr "Additional_Images"] :=
  c9_normalize_idempotent.2 [pystr " TITLE ", pystr "Additional_Images"]

/-- C1 counterexample: the headers Name, Desc, Price load as name, desc,
price — not as the canonical title, description, price the claim states —
and a header containing a space keeps its space (no space-to-underscore
step). -/
theorem c1_load_counterexample :
    normalizeHeaders [pystr "Name", pystr "Desc", pystr "Price"]
        = [pystr "name", pystr "desc", pystr "price"]
    ∧ normalizeHeaders [pystr "Name", pystr "Desc", pystr "Price"]
        ≠ [pystr "title", pystr "description", pystr "price"]
    ∧ normalizeHeader (pystr "Product Name") = pystr "product name" := by
  refine ⟨by decide, by decide, by decide⟩

/-- C1 amended: `load_excel` normalizes each header by lowercasing and
trimming only (spaces are not replaced by underscores), then substitutes it
through the fixed five-entry `column_mapping` table; unmapped headers pass
through unchanged; a sheet with headers Name, Desc, Price loads with columns
name, desc, price. -/
theorem c1_load_amended (hs : List (List Nat)) (rows : List (List (List Nat)))
    (hrows : rows ≠ []) :
    loadExcel hs rows = Except.ok (normalizeHeaders hs, rows)
    ∧ (∀ h : List Nat, List.lookup (pyStrip (pyLower h)) column_mapping = none →
        normalizeHeader h = pyStrip (pyLower h))
    ∧ (∀ kv ∈ column_mapping, normalizeHeader kv.1 = kv.2)
    ∧ normalizeHeaders [pystr "Name", pystr "Desc", pystr "Price"]
        = [pystr "name", pystr "desc", pystr "price"] := by
  refine ⟨?_, ?_, by decide, by decide⟩
  · cases rows with
    | nil => exact absurd rfl hrows
    | cons a t => rfl
  · intro h hl
    simp [normalizeHeader, renameColumn, hl]

/-- Witness for C1's amended theorem at a concrete sheet. -/
theorem c1_load_amended_witness :
    loadExcel [pystr "Name", pystr "Desc", pystr "Price"] [[pystr "r"]]
      = Except.ok ([pystr "name", pystr "desc", pystr "price"], [[pystr "r"]]) := by
  have h := c1_load_amended [pystr "Name", pystr "Desc", pystr "Price"] [[pystr "r"]]
    (by decide)
  rw [h.1, h.2.2.2]

theorem checkCategoryCell_eq_none (v : List (List Nat)) (c : Option (List Nat)) :
    checkCategoryCell v c = none ↔ ∃ s, c = some s ∧ pyStrip s ≠ [] ∧ s ∈ v := by
  cases c with
  | none => simp [checkCategoryCell]
  | some s =>
    simp only [checkCategoryCell]
    split_ifs with h1 h2
    · simp [h1]
    · simp [h1, h2]
    · simp [h1, h2]

theorem collectInvalid_eq_nil (v : List (List Nat)) :
    ∀ (i : Nat) (cs : List (Option (List Nat))),
      (collectInvalid v i cs = [] ↔ ∀ c ∈ cs, checkCategoryCell v c = none) := by
  intro i cs
  induction cs generalizing i with
  | nil => simp [collectInvalid]
  | cons c rest ih =>
    simp only [collectInvalid]
    cases hc : checkCategoryCell v c with
    | none => simp [hc, ih (i + 1)]
    | some pr => simp [hc]

/-- C2 counterexample: the spec's `validate` would report missing `[link]` on
the example table with columns title, description, price; the source's
`check_feed_issues` takes no required-field set and, on that same table,
returns the fixed issue report that merely flags the hardcoded
`google_product_category` column as missing. -/
theorem c2_validate_counterexample :
    specValidate ["title", "description", "price", "link"] ["title", "description", "price"]
        = ["link"]
    ∧ checkFeedIssues []
        [("title", [some (pystr "a")]), ("description", [some (pystr "b")]),
         ("price", [some (pystr "c")])]
        = ⟨[], [], false, false, [], true⟩ := by
  refine ⟨by decide, by decide⟩

/-- C2 amended: `check_feed_issues` has no requiredFields parameter; its only
column-presence validation concerns `google_product_category`:
`missing_category_column` is set exactly when that column is absent, and when
the column is present a row is flagged invalid exactly when its cell is NaN,
blank after stripping, or not in the loaded taxonomy.  On the example table
with columns title, description, price it reports the category column missing,
not `missing: [link]`. -/
theorem c2_validate_amended (v : List (List Nat))
    (df : List (String × List (Option (List Nat)))) :
    ((checkFeedIssues v df).missing_category_column = true
        ↔ df.lookup "google_product_category" = none)
    ∧ (df.lookup "google_product_category" = none →
        (checkFeedIssues v df).invalid_categories = [])
    ∧ (∀ cells, df.lookup "google_product_category" = some cells →
        ((checkFeedIssues v df).invalid_categories = [] ↔
          ∀ c ∈ cells, ∃ s, c = some s ∧ pyStrip s ≠ [] ∧ s ∈ v))
    ∧ checkFeedIssues v
        [("title", [some (pystr "a")]), ("description", [some (pystr "b")]),
         ("price", [some (pystr "c")])]
        = ⟨[], [], false, false, [], true⟩ := by
  refine ⟨?_, ?_, ?_, rfl⟩
  · cases hl : df.lookup "google_product_category" <;> simp [checkFeedIssues, hl]
  · intro hl
    simp [checkFeedIssues, hl]
  · intro cells hl
    simp only [checkFeedIssues, hl]
    rw [collectInvalid_eq_nil]
    constructor
    · intro hall c hc
      exact (checkCategoryCell_eq_none v c).mp (hall c hc)
    · intro hall c hc
      exact (checkCategoryCell_eq_none v c).mpr (hall c hc)

/-- Witness for C2's amended theorem on a concrete taxonomy and table. -/
theorem c2_validate_amended_witness :
    (checkFeedIssues [pystr "Apple"]
        [("google_product_category", [some (pystr "Apple")])]).invalid_categories = [] :=
  ((c2_validate_amended [pystr "Apple"]
      [("google_product_category", [some (pystr "Apple")])]).2.2.1
    [some (pystr "Apple")] rfl).mpr (by decide)

theorem registerUserSql_none_eq (s : Store) (username password email : String)
    (salt time : Nat) :
    registerUserSql none s username password email salt time
      = registerUser s username password email salt time := rfl

theorem verify_append_new (s : Store) (username password email : String)
    (salt time : Nat) (hu : s.any (fun r => r.username == username) = false)
    (u p : String) :
    ((verifyUser (s ++ [(⟨username, hashpw password salt, email, time⟩ : UserRec)]) u p).1 = true)
      ↔ ((username = u ∧ password = p) ∨ (verifyUser s u p).1 = true) := by
  by_cases hn : username = u
  · subst hn
    have hfs : List.find? (fun r : UserRec => r.username == username) s = none := by
      rw [List.find?_eq_none]
      intro x hx
      have := List.any_eq_false.mp hu x hx
      simpa using this
    have hone : List.find? (fun r : UserRec => r.username == username)
        [(⟨username, hashpw password salt, email, time⟩ : UserRec)]
        = some (⟨username, hashpw password salt, email, time⟩ : UserRec) := by
      simp [List.find?]
    have happ : List.find? (fun r : UserRec => r.username == username)
        (s ++ [(⟨username, hashpw password salt, email, time⟩ : UserRec)])
        = some (⟨username, hashpw password salt, email, time⟩ : UserRec) := by
      rw [List.find?_append, hfs, hone]
      rfl
    have hv : verifyUser (s ++ [(⟨username, hashpw password salt, email, time⟩ : UserRec)])
        username p
        = if checkpw p (hashpw password salt) then (true, "Login successful!")
          else (false, "Invalid username or password!") := by
      unfold verifyUser
      rw [happ]
    have hvs : verifyUser s username p = (false, "Invalid username or password!") := by
      unfold verifyUser
      rw [hfs]
    rw [hv, hvs]
    by_cases hb : (p == password) = true
    · have hpe : p = password := eq_of_beq hb
      subst hpe
      simp [checkpw, hashpw, hb]
    · have hne : password ≠ p := fun hh => hb (beq_iff_eq.mpr hh.symm)
      simp [checkpw, hashpw, hb, hne]
  · have hbe : (username == u) = false := beq_eq_false_iff_ne.mpr hn
    have hone : List.find? (fun r : UserRec => r.username == u)
        [(⟨username, hashpw password salt, email, time⟩ : UserRec)] = none := by
      simp [List.find?, hbe]
    have happ : List.find? (fun r : UserRec => r.username == u)
        (s ++ [(⟨username, hashpw password salt, email, time⟩ : UserRec)])
        = List.find? (fun r : UserRec => r.username == u) s := by
      rw [List.find?_append, hone, Option.or_none]
    simp only [verifyUser, happ]
    constructor
    · intro h
      exact Or.inr h
    · intro h
      rcases h with ⟨hn2, -⟩ | h
      · exact absurd hn2 hn
      · exact h

theorem verify_runRegs (ops : List RegOp) : ∀ (s : Store) (u p : String),
    ((verifyUser (runRegs s ops) u p).1 = true)
      ↔ (registeredWith s ops u p ∨ (verifyUser s u p).1 = true) := by
  induction ops with
  | nil =>
    intro s u p
    simp [runRegs, registeredWith]
  | cons op rest ih =>
    intro s u p
    by_cases h1 : s.any (fun r => r.username == op.username)
    · have hreg : registerUser s op.username op.password op.email op.salt op.time
          = (s, false, "Username already exists!") := by
        simp [registerUser, h1]
      simp only [runRegs, registeredWith, hreg]
      rw [ih]
      simp
    · by_cases h2 : s.any (fun r => r.email == op.email)
      · have hreg : registerUser s op.username op.password op.email op.salt op.time
            = (s, false, "Email already registered!") := by
          simp [registerUser, h1, h2]
        simp only [runRegs, registeredWith, hreg]
        rw [ih]
        simp
      · have hreg : registerUser s op.username op.password op.email op.salt op.time
            = (s ++ [(⟨op.username, hashpw op.password op.salt, op.email, op.time⟩ : UserRec)],
               true, "Registration successful!") := by
          simp [registerUser, h1, h2]
        simp only [runRegs, registeredWith, hreg]
        rw [ih]
        rw [verify_append_new s op.username op.password op.email op.salt op.time
          (Bool.not_eq_true _ ▸ h1) u p]
        simp only [true_and]
        tauto

/-- C3: a `verify_user(u, p)` call against the store produced by any sequence
of `register_user` calls (starting from the empty store) succeeds exactly when
some earlier `register_user(u, p, _)` call succeeded with exactly that
password — the stored bcrypt digest of the registration password is compared,
case-sensitively and unmodified, against the supplied password. -/
theorem c3_verify_iff_registered (ops : List RegOp) (u p : String) :
    (verifyUser (runRegs [] ops) u p).1 = true ↔ registeredWith [] ops u p := by
  have h := verify_runRegs ops [] u p
  have hempty : (verifyUser ([] : Store) u p).1 = false := rfl
  rw [hempty] at h
  simpa using h

/-- Witness for C3: from a concrete successful login, recover the fact that
alice was registered with exactly that password. -/
theorem c3_verify_iff_registered_witness :
    registeredWith [] [⟨"alice", "Passw0rd", "a@x.com", 5, 7⟩] "alice" "Passw0rd" :=
  (c3_verify_iff_registered [⟨"alice", "Passw0rd", "a@x.com", 5, 7⟩]
    "alice" "Passw0rd").mp (by decide)

/-- C4: once `register_user(u, p1, e1)` has succeeded, registering the same
username again — with any password and any email, in the MongoDB backend and
in the SQLite backend alike — fails with the duplicate-username message and
leaves the store unchanged, and the store still holds exactly one record for
that username, carrying the first registration's email. -/
theorem c4_duplicate_username (s s' : Store) (u p1 e1 p2 e2 m : String)
    (a1 t1 a2 t2 : Nat)
    (h1 : registerUser s u p1 e1 a1 t1 = (s', true, m)) :
    registerUser s' u p2 e2 a2 t2 = (s', false, "Username already exists!")
    ∧ registerUserSql none s' u p2 e2 a2 t2 = (s', false, "Username already exists!")
    ∧ s'.filter (fun r => r.username == u) = [(⟨u, hashpw p1 a1, e1, t1⟩ : UserRec)] := by
  rw [registerUser] at h1
  split_ifs at h1 with ha hb
  · simp at h1
  · simp at h1
  · simp only [Prod.mk.injEq] at h1
    obtain ⟨hs', -⟩ := h1
    subst hs'
    have hdup : (s ++ [(⟨u, hashpw p1 a1, e1, t1⟩ : UserRec)]).any
        (fun r => r.username == u) = true := by
      rw [List.any_append]
      simp
    refine ⟨by simp [registerUser, hdup], by simp [registerUserSql, hdup], ?_⟩
    rw [List.filter_append]
    have hnil : s.filter (fun r => r.username == u) = [] := by
      rw [List.filter_eq_nil_iff]
      intro r hr
      have := List.any_eq_false.mp (Bool.not_eq_true _ ▸ ha) r hr
      simpa using this
    rw [hnil]
    simp

/-- Witness for C4 at the spec's example: alice registered twice. -/
theorem c4_duplicate_username_witness :
    registerUser [(⟨"alice", hashpw "Passw0rd" 0, "a@x.com", 0⟩ : UserRec)]
        "alice" "Other1x!" "b@y.com" 1 1
        = ([(⟨"alice", hashpw "Passw0rd" 0, "a@x.com", 0⟩ : UserRec)], false,
           "Username already exists!")
    ∧ registerUserSql none [(⟨"alice", hashpw "Passw0rd" 0, "a@x.com", 0⟩ : UserRec)]
        "alice" "Other1x!" "b@y.com" 1 1
        = ([(⟨"alice", hashpw "Passw0rd" 0, "a@x.com", 0⟩ : UserRec)], false,
           "Username already exists!")
    ∧ List.filter (fun r => r.username == "alice")
        [(⟨"alice", hashpw "Passw0rd" 0, "a@x.com", 0⟩ : UserRec)]
        = [(⟨"alice", hashpw "Passw0rd" 0, "a@x.com", 0⟩ : UserRec)] :=
  c4_duplicate_username [] [(⟨"alice", hashpw "Passw0rd" 0, "a@x.com", 0⟩ : UserRec)]
    "alice" "Passw0rd" "a@x.com" "Other1x!" "b@y.com" "Registration successful!"
    0 0 1 1 (by decide)

/-- C5: a `verify_user` call with an absent username and one with an existing
username but wrong password return the identical failure pair — the same
outcome and the same "Invalid username or password!" message, in both
backends — so the caller cannot tell the two failure causes apart. -/
theorem c5_invalid_credentials_indistinguishable (s : Store) (u1 p1 u2 p2 : String)
    (r : UserRec)
    (h1 : ∀ x ∈ s, (x.username == u1) = false)
    (h2 : s.find? (fun x => x.username == u2) = some r)
    (h3 : checkpw p2 r.password = false) :
    verifyUser s u1 p1 = verifyUser s u2 p2
    ∧ verifyUser s u1 p1 = (false, "Invalid username or password!")
    ∧ verifyUserSql none s u1 p1 = verifyUserSql none s u2 p2 := by
  have hf1 : s.find? (fun x : UserRec => x.username == u1) = none := by
    rw [List.find?_eq_none]
    intro x hx
    simp [h1 x hx]
  have hv1 : verifyUser s u1 p1 = (false, "Invalid username or password!") := by
    simp [verifyUser, hf1]
  have hv2 : verifyUser s u2 p2 = (false, "Invalid username or password!") := by
    simp [verifyUser, h2, h3]
  refine ⟨hv1.trans hv2.symm, hv1, ?_⟩
  show Except.ok (verifyUser s u1 p1) = Except.ok (verifyUser s u2 p2)
  rw [hv1, hv2]

/-- Witness for C5: unknown alice and bob-with-wrong-password get the same
answer. -/
theorem c5_invalid_credentials_indistinguishable_witness :
    verifyUser [(⟨"bob", hashpw "Secret9x" 0, "b@y.com", 0⟩ : UserRec)] "alice" "anything"
        = verifyUser [(⟨"bob", hashpw "Secret9x" 0, "b@y.com", 0⟩ : UserRec)] "bob" "wrong"
    ∧ verifyUser [(⟨"bob", hashpw "Secret9x" 0, "b@y.com", 0⟩ : UserRec)] "alice" "anything"
        = (false, "Invalid username or password!")
    ∧ verifyUserSql none [(⟨"bob", hashpw "Secret9x" 0, "b@y.com", 0⟩ : UserRec)]
          "alice" "anything"
        = verifyUserSql none [(⟨"bob", hashpw "Secret9x" 0, "b@y.com", 0⟩ : UserRec)]
          "bob" "wrong" :=
  c5_invalid_credentials_indistinguishable
    [(⟨"bob", hashpw "Secret9x" 0, "b@y.com", 0⟩ : UserRec)] "alice" "anything" "bob" "wrong"
    (⟨"bob", hashpw "Secret9x" 0, "b@y.com", 0⟩ : UserRec) (by decide) (by decide) (by decide)

/-- C6: for any weak password — shorter than 8 characters, or with no
uppercase letter, lowercase letter or digit — the registration flow of
`register_page` rejects the submission with the `validate_password` message
naming a criterion the password actually fails, before `register_user` is
ever called, so the store is unchanged and no record is persisted. -/
theorem c6_weak_password_rejected (s : Store) (u e p c : String) (salt time : Nat)
    (hu : u ≠ "") (he : e ≠ "") (hp : p ≠ "") (hc : c ≠ "")
    (hmail : validateEmail e = true)
    (hweak : p.length < 8 ∨ p.toList.any isUpperCh = false
      ∨ p.toList.any isLowerCh = false ∨ p.toList.any isDigitCh = false) :
    (validatePassword p).1 = false
    ∧ registerPage s u e p c salt time = (s, PageMsg.error (validatePassword p).2)
    ∧ (((validatePassword p).2 = "Password must be at least 8 characters long"
          ∧ p.length < 8)
      ∨ ((validatePassword p).2 = "Password must contain at least one uppercase letter"
          ∧ p.toList.any isUpperCh = false)
      ∨ ((validatePassword p).2 = "Password must contain at least one lowercase letter"
          ∧ p.toList.any isLowerCh = false)
      ∨ ((validatePassword p).2 = "Password must contain at least one number"
          ∧ p.toList.any isDigitCh = false)) := by
  have hval : (validatePassword p).1 = false
      ∧ (((validatePassword p).2 = "Password must be at least 8 characters long"
            ∧ p.length < 8)
        ∨ ((validatePassword p).2 = "Password must contain at least one uppercase letter"
            ∧ p.toList.any isUpperCh = false)
        ∨ ((validatePassword p).2 = "Password must contain at least one lowercase letter"
            ∧ p.toList.any isLowerCh = false)
        ∨ ((validatePassword p).2 = "Password must contain at least one number"
            ∧ p.toList.any isDigitCh = false)) := by
    unfold validatePassword
    by_cases h8 : p.length < 8
    · rw [if_pos h8]
      exact ⟨rfl, Or.inl ⟨rfl, h8⟩⟩
    · rw [if_neg h8]
      by_cases hU : p.toList.any isUpperCh = false
      · rw [if_pos hU]
        exact ⟨rfl, Or.inr (Or.inl ⟨rfl, hU⟩)⟩
      · rw [if_neg hU]
        by_cases hL : p.toList.any isLowerCh = false
        · rw [if_pos hL]
          exact ⟨rfl, Or.inr (Or.inr (Or.inl ⟨rfl, hL⟩))⟩
        · rw [if_neg hL]
          by_cases hD : p.toList.any isDigitCh = false
          · rw [if_pos hD]
            exact ⟨rfl, Or.inr (Or.inr (Or.inr ⟨rfl, hD⟩))⟩
          · rcases hweak with h | h | h | h
            · exact absurd h h8
            · exact absurd h hU
            · exact absurd h hL
            · exact absurd h hD
  refine ⟨hval.1, ?_, hval.2⟩
  unfold registerPage
  rw [if_pos ⟨hu, he, hp, hc⟩, if_neg (by simp [hmail]), if_pos hval.1]

/-- Witness for C6 with the too-short password "abc". -/
theorem c6_weak_password_rejected_witness :
    (validatePassword "abc").1 = false
    ∧ registerPage [] "alice" "a@x.com" "abc" "abc" 0 0
        = ([], PageMsg.error (validatePassword "abc").2)
    ∧ (((validatePassword "abc").2 = "Password must be at least 8 characters long"
          ∧ "abc".length < 8)
      ∨ ((validatePassword "abc").2 = "Password must contain at least one uppercase letter"
          ∧ "abc".toList.any isUpperCh = false)
      ∨ ((validatePassword "abc").2 = "Password must contain at least one lowercase letter"
          ∧ "abc".toList.any isLowerCh = false)
      ∨ ((validatePassword "abc").2 = "Password must contain at least one number"
          ∧ "abc".toList.any isDigitCh = false)) :=
  c6_weak_password_rejected [] "alice" "a@x.com" "abc" "abc" 0 0
    (by decide) (by decide) (by decide) (by decide) (by decide) (Or.inl (by decide))

/-- C7: the sampling step of `analyze_feed` returns exactly
`min n row_count` rows — never more than `n` — every returned row is a row of
the original table, no row is returned more often than it occurs in the
table, and when the table has at most `n` rows it is returned unchanged.
`shuffled` is the random permutation drawn by `DataFrame.sample`; the source
instantiates `n := 3` (`analyzeSampleStep`). -/
theorem c7_sample_bounds {α : Type} (feed shuffled : List α) (n : Nat)
    (hperm : List.Perm shuffled feed) :
    (sampleRows feed shuffled n).length = min n feed.length
    ∧ (sampleRows feed shuffled n).length ≤ n
    ∧ List.Subperm (sampleRows feed shuffled n) feed
    ∧ (∀ r ∈ sampleRows feed shuffled n, r ∈ feed)
    ∧ (feed.length ≤ n → sampleRows feed shuffled n = feed)
    ∧ analyzeSampleStep feed shuffled = sampleRows feed shuffled 3 := by
  have hsub : List.Subperm (sampleRows feed shuffled n) feed := by
    unfold sampleRows
    split_ifs with hlen
    · exact List.Subperm.trans (List.Sublist.subperm (List.take_sublist n shuffled))
        hperm.subperm
    · exact List.Subperm.refl feed
  have hlen : (sampleRows feed shuffled n).length = min n feed.length := by
    unfold sampleRows
    split_ifs with hgt
    · rw [List.length_take, hperm.length_eq]
    · have : min n feed.length = feed.length := by omega
      rw [this]
  refine ⟨hlen, by rw [hlen]; omega, hsub, ?_, ?_, rfl⟩
  · intro r hr
    exact hsub.subset hr
  · intro hle
    unfold sampleRows
    rw [if_neg (by omega)]

/-- Witness for C7 on a concrete table and permutation. -/
theorem c7_sample_bounds_witness :
    (sampleRows [1, 2, 3, 4] [3, 1, 4, 2] 2).length = min 2 (List.length [1, 2, 3, 4])
    ∧ (sampleRows [1, 2, 3, 4] [3, 1, 4, 2] 2).length ≤ 2
    ∧ List.Subperm (sampleRows [1, 2, 3, 4] [3, 1, 4, 2] 2) [1, 2, 3, 4]
    ∧ (∀ r ∈ sampleRows [1, 2, 3, 4] [3, 1, 4, 2] 2, r ∈ [1, 2, 3, 4])
    ∧ (List.length [1, 2, 3, 4] ≤ 2 → sampleRows [1, 2, 3, 4] [3, 1, 4, 2] 2 = [1, 2, 3, 4])
    ∧ analyzeSampleStep [1, 2, 3, 4] [3, 1, 4, 2] = sampleRows [1, 2, 3, 4] [3, 1, 4, 2] 3 :=
  c7_sample_bounds [1, 2, 3, 4] [3, 1, 4, 2] 2 (by decide)

theorem mem_runRegs (ops : List RegOp) : ∀ (s : Store) (r : UserRec),
    r ∈ runRegs s ops →
    r ∈ s ∨ ∃ op ∈ ops,
      r = (⟨op.username, hashpw op.password op.salt, op.email, op.time⟩ : UserRec) := by
  induction ops with
  | nil =>
    intro s r hr
    exact Or.inl hr
  | cons op rest ih =>
    intro s r hr
    by_cases h1 : s.any (fun x => x.username == op.username)
    · rw [show runRegs s (op :: rest)
          = runRegs (registerUser s op.username op.password op.email op.salt op.time).1 rest
          from rfl, show (registerUser s op.username op.password op.email op.salt op.time).1 = s
          by simp [registerUser, h1]] at hr
      rcases ih s r hr with h | ⟨op', hop', heq⟩
      · exact Or.inl h
      · exact Or.inr ⟨op', List.mem_cons_of_mem _ hop', heq⟩
    · by_cases h2 : s.any (fun x => x.email == op.email)
      · rw [show runRegs s (op :: rest)
            = runRegs (registerUser s op.username op.password op.email op.salt op.time).1 rest
            from rfl, show (registerUser s op.username op.password op.email op.salt op.time).1 = s
            by simp [registerUser, h1, h2]] at hr
        rcases ih s r hr with h | ⟨op', hop', heq⟩
        · exact Or.inl h
        · exact Or.inr ⟨op', List.mem_cons_of_mem _ hop', heq⟩
      · rw [show runRegs s (op :: rest)
            = runRegs (registerUser s op.username op.password op.email op.salt op.time).1 rest
            from rfl, show (registerUser s op.username op.password op.email op.salt op.time).1
            = s ++ [(⟨op.username, hashpw op.password op.salt, op.email, op.time⟩ : UserRec)]
            by simp [registerUser, h1, h2]] at hr
        rcases ih _ r hr with h | ⟨op', hop', heq⟩
        · rcases List.mem_append.mp h with h | h
          · exact Or.inl h
          · rcases List.mem_singleton.mp h with rfl
            exact Or.inr ⟨op, List.mem_cons_self _ _, rfl⟩
        · exact Or.inr ⟨op', List.mem_cons_of_mem _ hop', heq⟩

/-- C8: after any sequence of `register_user` calls against an initially empty
store — and the SQLite backend performs the identical insertion — every stored
record is exactly the document built at its successful registration: its
password field holds the one-way salted digest `bcrypt.hashpw` of the password
supplied then, never the plaintext password itself. -/
theorem c8_passwords_hashed (ops : List RegOp) (r : UserRec)
    (hr : r ∈ runRegs [] ops) :
    (∃ op ∈ ops,
        r = (⟨op.username, hashpw op.password op.salt, op.email, op.time⟩ : UserRec))
    ∧ (∀ (s : Store) (username password email : String) (salt time : Nat),
        registerUserSql none s username password email salt time
          = registerUser s username password email salt time) := by
  refine ⟨?_, fun _ _ _ _ _ _ => rfl⟩
  rcases mem_runRegs ops [] r hr with h | h
  · simp at h
  · exact h

/-- Witness for C8: the record stored for alice carries the digest of her
registration password. -/
theorem c8_passwords_hashed_witness :
    ∃ op ∈ [(⟨"alice", "Passw0rd", "a@x.com", 5, 7⟩ : RegOp)],
      (⟨"alice", hashpw "Passw0rd" 5, "a@x.com", 7⟩ : UserRec)
        = (⟨op.username, hashpw op.password op.salt, op.email, op.time⟩ : UserRec) :=
  (c8_passwords_hashed [(⟨"alice", "Passw0rd", "a@x.com", 5, 7⟩ : RegOp)]
    (⟨"alice", hashpw "Passw0rd" 5, "a@x.com", 7⟩ : UserRec) (by decide)).1

/-- C10: the claim that both backends always return a (success, message) pair
fails on the SQLite `verify_user`: when `sqlite3.connect` raises, the
`finally` clause calls `conn.close()` on the never-assigned local `conn`, and
the resulting `UnboundLocalError` propagates to the caller instead of the
prepared error pair.  `register_user` (no `finally` clause) and the
with-connection paths of `verify_user` do return pairs. -/
theorem c10_sqlite_verify_exception :
    verifyUserSql (some "unable to open database file") [] "alice" "Passw0rd"
        = Except.error "UnboundLocalError: conn"
    ∧ (∀ (cerr : Option String) (s : Store) (u p e : String) (a t : Nat),
        ∃ (s' : Store) (ok : Bool) (msg : String),
          registerUserSql cerr s u p e a t = (s', ok, msg))
    ∧ (∀ (s : Store) (u p : String), ∃ (ok : Bool) (msg : String),
        verifyUserSql none s u p = Except.ok (ok, msg)) := by
  refine ⟨rfl, ?_, ?_⟩
  · intro cerr s u p e a t
    exact ⟨(registerUserSql cerr s u p e a t).1, (registerUserSql cerr s u p e a t).2.1,
      (registerUserSql cerr s u p e a t).2.2, rfl⟩
  · intro s u p
    exact ⟨(verifyUser s u p).1, (verifyUser s u p).2, rfl⟩
